import Mathlib

/-!
Verification of the robotics-core control system (Go sources) via a shallow
embedding.  Go `float64` values are modelled as exact rationals (`ℚ`): every
operation the embedded code performs (+, *, /, abs, comparisons, clamping) is
algebraic, and the claims under study are about the algorithmic structure of
those operations, not about IEEE-754 rounding.  Goroutine/channel plumbing is
modelled by sequential state passing: each component's single worker processes
one queue item at a time, so the per-item state transformation is exactly the
worker's loop body.  Closing a channel, and the Go runtime faults "close of
closed channel" / "send on closed channel", are modelled explicitly where a
claim depends on them.
-/

/-- Last `n` elements of a list (the suffix kept by a FIFO buffer of
capacity `n`). -/
def lastN (n : Nat) (l : List α) : List α := l.drop (l.length - n)

theorem lastN_of_le (n : Nat) (l : List α) (h : l.length ≤ n) : lastN n l = l := by
  simp [lastN, Nat.sub_eq_zero_of_le h]

theorem length_lastN (n : Nat) (l : List α) : (lastN n l).length = min n l.length := by
  simp [lastN]
  omega

/-- The Go idiom `buf = append(buf, v); if len(buf) > cap { buf = buf[1:] }`
pushed through `lastN`: appending to the kept suffix and trimming yields the
kept suffix of the longer list. -/
theorem lastN_append_singleton (cap : Nat) (hcap : 0 < cap) (l : List α) (v : α) :
    (if (lastN cap l ++ [v]).length > cap then (lastN cap l ++ [v]).tail
     else lastN cap l ++ [v]) = lastN cap (l ++ [v]) := by
  by_cases hlen : l.length < cap
  · rw [lastN_of_le cap l (Nat.le_of_lt hlen), lastN_of_le]
    · simp
      omega
    · simp
      omega
  · push_neg at hlen
    have hbuf : (lastN cap l).length = cap := by
      rw [length_lastN]; omega
    have hgt : (lastN cap l ++ [v]).length > cap := by
      simp [hbuf]
    rw [if_pos hgt]
    unfold lastN
    have h2 : (l ++ [v]).length - cap = (l.length - cap) + 1 := by
      simp; omega
    rw [h2, List.drop_append_of_le_length (by omega)]
    have hne : List.drop (l.length - cap) l ≠ [] := by
      intro hnil
      have := congrArg List.length hnil
      rw [List.length_drop] at this
      simp at this
      omega
    rw [List.tail_append_of_ne_nil hne, List.tail_drop]

/-- A Go runtime fault raised by channel misuse. -/
inductive RuntimeFault where
  | closeOfClosedChannel
  | sendOnClosedChannel
deriving DecidableEq, Repr

namespace Sensor

/-- `SensorType` from `pkg/sensor/hub.go` (touch, pressure, motion,
temperature). -/
inductive SensorType where
  | touch
  | pressure
  | motionT
  | temperature
deriving DecidableEq, Repr

/-- `SensorData`: one reading.  The Go struct carries a wall-clock
`Timestamp`; it is modelled as a rational and never inspected by the hub. -/
structure SensorData where
  type : SensorType
  value : ℚ
  timestamp : ℚ
deriving DecidableEq, Repr

/-- The hub's state: the per-category buffers (`sensors` map in Go, with all
four categories initialised by `NewHub`) plus whether `Shutdown` has closed
the hub's channels. -/
structure Hub where
  touchBuf : List ℚ
  pressureBuf : List ℚ
  motionBuf : List ℚ
  tempBuf : List ℚ
  closed : Bool
deriving DecidableEq, Repr

/-- Buffer for one category (`h.sensors[t]`). -/
def Hub.buf (h : Hub) (t : SensorType) : List ℚ :=
  match t with
  | .touch => h.touchBuf
  | .pressure => h.pressureBuf
  | .motionT => h.motionBuf
  | .temperature => h.tempBuf

/-- Replace the buffer for one category. -/
def Hub.setBuf (h : Hub) (t : SensorType) (l : List ℚ) : Hub :=
  match t with
  | .touch => { h with touchBuf := l }
  | .pressure => { h with pressureBuf := l }
  | .motionT => { h with motionBuf := l }
  | .temperature => { h with tempBuf := l }

/-- `NewHub`: all four buffers empty, channels open. -/
def newHub : Hub :=
  { touchBuf := [], pressureBuf := [], motionBuf := [], tempBuf := [], closed := false }

/-- One iteration of the worker loop body in `processData`: append the value
to its category's buffer, and if the buffer now exceeds 1000 entries drop the
oldest (`h.sensors[data.Type][1:]`). -/
def processOne (h : Hub) (d : SensorData) : Hub :=
  let grown := h.buf d.type ++ [d.value]
  h.setBuf d.type (if grown.length > 1000 then grown.tail else grown)

/-- The worker consuming a queue of readings in order. -/
def processAll (h : Hub) (ds : List SensorData) : Hub :=
  ds.foldl processOne h

/-- `GetSensorData`: snapshot of one category's buffer. -/
def getSensorData (h : Hub) (t : SensorType) : List ℚ := h.buf t

/-- Values of the readings belonging to one category, in arrival order. -/
def valuesFor (t : SensorType) (ds : List SensorData) : List ℚ :=
  (ds.filter (fun d => d.type = t)).map (fun d => d.value)

/-- `Hub.Shutdown`: `close(h.done); close(h.dataChan)`.  Closing an
already-closed channel is a Go runtime fault, so a second call faults. -/
def hubShutdown (h : Hub) : Except RuntimeFault Hub :=
  if h.closed then .error .closeOfClosedChannel
  else .ok { h with closed := true }

/-- Outcome of submitting a reading to the hub.  `AddSensorData` in Go has no
error return value at all: it either enqueues the reading (which the worker
then folds into the buffer) or, when `dataChan` has been closed by
`Shutdown`, raises the "send on closed channel" runtime fault. -/
inductive IngestOutcome where
  | ok (h : Hub)
  | hubClosedError
  | fault (f : RuntimeFault)
deriving DecidableEq, Repr

/-- `AddSensorData` (`h.dataChan <- data`) followed by the worker's
processing of the reading.  The `hubClosedError` constructor is never
produced: it exists only to state that the code does NOT return such an
error. -/
def addSensorData (h : Hub) (d : SensorData) : IngestOutcome :=
  if h.closed then .fault .sendOnClosedChannel
  else .ok (processOne h d)

end Sensor

namespace Motion

/-- `MotorType` from the motion package. -/
inductive MotorType where
  | servo
  | stepper
  | dc
deriving DecidableEq, Repr

/-- `Motor`: one motor unit (positions in degrees, speed in degrees/second). -/
structure Motor where
  id : String
  type : MotorType
  position : ℚ
  speed : ℚ
  maxSpeed : ℚ
  minPosition : ℚ
  maxPosition : ℚ
  isEnabled : Bool
deriving DecidableEq, Repr

/-- `MotorCommand`. -/
structure MotorCommand where
  id : String
  position : ℚ
  speed : ℚ
deriving DecidableEq, Repr

/-- Errors returned by `executeCommand`. -/
inductive MotionError where
  | motorNotFound
  | motorIsDisabled
  | positionOutOfRange
deriving DecidableEq, Repr

/-- The controller's motor table (`c.motors`), as a list keyed by `Motor.id`,
plus the `running` flag and the closed-state of the control channels. -/
structure Controller where
  motors : List Motor
  running : Bool
  closed : Bool
deriving DecidableEq, Repr

/-- Look up a motor by id (`c.motors[cmd.ID]`). -/
def findMotor (c : Controller) (i : String) : Option Motor :=
  c.motors.find? (fun m => m.id = i)

/-- Replace the motor with the given id. -/
def setMotor (c : Controller) (m : Motor) : Controller :=
  { c with motors := c.motors.map (fun x => if x.id = m.id then m else x) }

/-- `NewController`'s default motor roster: two servos, position/speed zero
(Go zero values), `[0, 180]` degrees, 180 deg/s max. -/
def defaultMotors : List Motor :=
  [ { id := "servo_1", type := .servo, position := 0, speed := 0,
      maxSpeed := 180, minPosition := 0, maxPosition := 180, isEnabled := true },
    { id := "servo_2", type := .servo, position := 0, speed := 0,
      maxSpeed := 180, minPosition := 0, maxPosition := 180, isEnabled := true } ]

/-- `NewController`: default roster, running, channels open. -/
def newController : Controller :=
  { motors := defaultMotors, running := true, closed := false }

/-- `executeCommand`: validates motor existence, enablement and target
position, clamps `|target speed|` to `MaxSpeed`, then writes position and
speed.  Error paths return before any field is written. -/
def executeCommand (c : Controller) (cmd : MotorCommand) :
    Except MotionError Controller :=
  match findMotor c cmd.id with
  | none => .error .motorNotFound
  | some motor =>
    if !motor.isEnabled then .error .motorIsDisabled
    else if cmd.position < motor.minPosition ∨ cmd.position > motor.maxPosition then
      .error .positionOutOfRange
    else
      let speed := if |cmd.speed| > motor.maxSpeed then motor.maxSpeed else |cmd.speed|
      .ok (setMotor c { motor with position := cmd.position, speed := speed })

/-- The per-motor body of `updateMotorStates`: disabled motors are skipped;
enabled motors advance by `speed * 0.01` (the 10 ms tick) and are clamped to
`[minPosition, maxPosition]`, zeroing the speed on a clamp. -/
def integrateMotor (m : Motor) : Motor :=
  if !m.isEnabled then m
  else
    let delta := m.speed * (1 / 100)
    let newPos := m.position + delta
    if newPos < m.minPosition then
      { m with position := m.minPosition, speed := 0 }
    else if newPos > m.maxPosition then
      { m with position := m.maxPosition, speed := 0 }
    else
      { m with position := newPos }

/-- `updateMotorStates`: one integration tick over every motor. -/
def updateMotorStates (c : Controller) : Controller :=
  { c with motors := c.motors.map integrateMotor }

/-- The two events the worker loop in `processCommands` interleaves: a
command drawn from the control channel, or a 10 ms integration tick. -/
inductive MotionOp where
  | command (cmd : MotorCommand)
  | tick
deriving DecidableEq, Repr

/-- One worker-loop iteration.  A failed command returns its error without
touching the state (the Go error paths return before mutating). -/
def motionStep (c : Controller) (op : MotionOp) : Controller :=
  match op with
  | .command cmd =>
    match executeCommand c cmd with
    | .ok c' => c'
    | .error _ => c
  | .tick => updateMotorStates c

/-- The controller after a sequence of worker-loop events from start-up. -/
def motionRun (ops : List MotionOp) : Controller :=
  ops.foldl motionStep newController

/-- `Controller.Shutdown`: sets `running := false`, closes `done` and
`controlChan` (a second call faults on `close` of a closed channel), disables
every motor and zeroes its speed. -/
def controllerShutdown (c : Controller) : Except RuntimeFault Controller :=
  if c.closed then .error .closeOfClosedChannel
  else
    .ok { c with running := false, closed := true,
                 motors := c.motors.map (fun m => { m with isEnabled := false, speed := 0 }) }

end Motion

namespace Behavior

/-- `BehaviorType` from `pkg/behavior/analyzer.go`. -/
inductive BehaviorType where
  | normal
  | aggressive
  | passive
  | erratic
deriving DecidableEq, Repr

/-- `PatternMetrics`: the four derived behavioral measurements. -/
structure PatternMetrics where
  intensity : ℚ
  frequency : ℚ
  duration : ℚ
  consistency : ℚ
deriving DecidableEq, Repr

/-- `BehaviorPattern`: one classified snapshot.  The Go struct also stamps a
wall-clock `Timestamp` (`time.Now()`); it is never read by any state logic
and is omitted. -/
structure BehaviorPattern where
  type : BehaviorType
  confidence : ℚ
  metrics : PatternMetrics
deriving DecidableEq, Repr

/-- `Analyzer` state: the pattern history, the externally visible current
state, the confidence threshold, and the closed-state of its channels. -/
structure Analyzer where
  patterns : List BehaviorPattern
  currentState : BehaviorType
  threshold : ℚ
  closed : Bool
deriving DecidableEq, Repr

/-- `NewAnalyzer`: empty history, `normal` state, threshold `0.75`. -/
def newAnalyzer : Analyzer :=
  { patterns := [], currentState := .normal, threshold := 0.75, closed := false }

/-- `classifyBehavior`: thresholds on the averaged intensity and frequency. -/
def classifyBehavior (intensity frequency : ℚ) : BehaviorType :=
  if intensity > 0.8 ∧ frequency > 0.8 then .aggressive
  else if intensity < 0.2 ∧ frequency < 0.2 then .passive
  else if |intensity - frequency| > 0.5 then .erratic
  else .normal

/-- `calculateConfidence`: the mean consistency clamped into `[0, 1]`. -/
def calculateConfidence (consistency : ℚ) : ℚ :=
  if consistency > 1 then 1
  else if consistency < 0 then 0
  else consistency

/-- `analyzeBuffer`: averages each metric field over the buffer (running
sums divided by the length, as in the Go loop) and classifies.  The empty
buffer returns the early-out normal pattern from the Go code, though the
worker only calls this on a non-empty buffer. -/
def analyzeBuffer (buffer : List PatternMetrics) : BehaviorPattern :=
  if buffer = [] then
    { type := .normal, confidence := 1,
      metrics := { intensity := 0, frequency := 0, duration := 0, consistency := 0 } }
  else
    let sumI := buffer.foldl (fun acc m => acc + m.intensity) 0
    let sumF := buffer.foldl (fun acc m => acc + m.frequency) 0
    let sumD := buffer.foldl (fun acc m => acc + m.duration) 0
    let sumC := buffer.foldl (fun acc m => acc + m.consistency) 0
    let n : ℚ := buffer.length
    let avgI := sumI / n
    let avgF := sumF / n
    let avgD := sumD / n
    let avgC := sumC / n
    { type := classifyBehavior avgI avgF,
      confidence := calculateConfidence avgC,
      metrics := { intensity := avgI, frequency := avgF,
                   duration := avgD, consistency := avgC } }

/-- `addPattern`: append to the history, evict the oldest entry once the
history exceeds 1000, and update `currentState` only when the pattern's
confidence reaches the threshold. -/
def addPattern (a : Analyzer) (p : BehaviorPattern) : Analyzer :=
  let grown := a.patterns ++ [p]
  { a with
    patterns := if grown.length > 1000 then grown.tail else grown,
    currentState := if p.confidence ≥ a.threshold then p.type else a.currentState }

/-- `Analyzer.Shutdown`: `close(a.done); close(a.inputChan)`; a second call
faults on `close` of a closed channel. -/
def analyzerShutdown (a : Analyzer) : Except RuntimeFault Analyzer :=
  if a.closed then .error .closeOfClosedChannel
  else .ok { a with closed := true }

end Behavior

namespace Safety

/-- `SafetyLevel`: ordered enum from the safety package. -/
inductive SafetyLevel where
  | normal
  | warning
  | critical
  | emergency
deriving DecidableEq, Repr

/-- Numeric rank of a level (its position in the Go `iota` enum), used to
state the ordering. -/
def SafetyLevel.rank : SafetyLevel → Nat
  | .normal => 0
  | .warning => 1
  | .critical => 2
  | .emergency => 3

/-- `SafetyMonitor` state: current level and the warning list.  The Go
struct's `lastCheck` timestamp is wall-clock only and never read by the
escalation logic; it is omitted. -/
structure SafetyMonitor where
  currentLevel : SafetyLevel
  warnings : List String
deriving DecidableEq, Repr

/-- `InitializeSafetyProtocols`: level `normal`, no warnings. -/
def initMonitor : SafetyMonitor :=
  { currentLevel := .normal, warnings := [] }

/-- `AddWarning`: append the warning; if the count exceeds 10 set the level
to `warning`, then if it exceeds 20 set it to `critical` (both checks run on
every call, in this order). -/
def addWarning (s : SafetyMonitor) (w : String) : SafetyMonitor :=
  let ws := s.warnings ++ [w]
  let l1 := if ws.length > 10 then SafetyLevel.warning else s.currentLevel
  let l2 := if ws.length > 20 then SafetyLevel.critical else l1
  { currentLevel := l2, warnings := ws }

/-- The operations that touch the monitor's state: `AddWarning`, and the
periodic `performSafetyCheck` (which only re-stamps `lastCheck` and logs, so
on the modelled fields it is the identity). -/
inductive SafetyOp where
  | addWarningOp (w : String)
  | checkOp
deriving DecidableEq, Repr

/-- One monitor operation. -/
def safetyStep (s : SafetyMonitor) (op : SafetyOp) : SafetyMonitor :=
  match op with
  | .addWarningOp w => addWarning s w
  | .checkOp => s

/-- The monitor after a sequence of operations from initialization. -/
def safetyRun (ops : List SafetyOp) : SafetyMonitor :=
  ops.foldl safetyStep initMonitor

/-- The level `AddWarning`'s escalation policy assigns to a given warning
count. -/
def levelOf (n : Nat) : SafetyLevel :=
  if n > 20 then .critical else if n > 10 then .warning else .normal

end Safety

namespace Motion

/-- The invariant carried through the induction for the motor-bounds claim:
the static fields are well-formed (they are never written after
`NewController`) and the dynamic fields respect them. -/
def MotorInv (m : Motor) : Prop :=
  m.minPosition ≤ m.maxPosition ∧ 0 ≤ m.maxSpeed
    ∧ m.minPosition ≤ m.position ∧ m.position ≤ m.maxPosition
    ∧ |m.speed| ≤ m.maxSpeed

instance (m : Motor) : Decidable (MotorInv m) := by
  unfold MotorInv; infer_instance

theorem find?_map_replace (l : List Motor) (i : String) (m m2 : Motor)
    (hf : l.find? (fun x => x.id = i) = some m) (hid : m2.id = m.id) :
    (l.map (fun x => if x.id = m2.id then m2 else x)).find? (fun x => x.id = i)
      = some m2 := by
  induction l with
  | nil => simp at hf
  | cons x xs ih =>
    have hmi : m.id = i := by
      have := List.find?_some hf
      simpa using this
    by_cases hx : x.id = i
    · rw [List.find?_cons_of_pos _ (by simp only [decide_eq_true_eq]; exact hx)] at hf
      have hxm : x = m := Option.some.inj hf
      have hxm2 : x.id = m2.id := by rw [hxm, hid]
      simp only [List.map_cons, if_pos hxm2]
      exact List.find?_cons_of_pos _ (by simp only [decide_eq_true_eq]; rw [hid, hmi])
    · rw [List.find?_cons_of_neg _ (by simp only [decide_eq_true_eq]; exact hx)] at hf
      have hxm : ¬ x.id = m2.id := by
        rw [hid, hmi]; exact hx
      simp only [List.map_cons, if_neg hxm]
      rw [List.find?_cons_of_neg _ (by simp only [decide_eq_true_eq]; exact hx)]
      exact ih hf

theorem findMotor_setMotor (c : Controller) (i : String) (m m2 : Motor)
    (hf : findMotor c i = some m) (hid : m2.id = m.id) :
    findMotor (setMotor c m2) i = some m2 :=
  find?_map_replace c.motors i m m2 hf hid

theorem executeCommand_notFound (c : Controller) (cmd : MotorCommand)
    (h : findMotor c cmd.id = none) :
    executeCommand c cmd = .error .motorNotFound := by
  unfold executeCommand
  rw [h]

theorem executeCommand_disabled (c : Controller) (cmd : MotorCommand) (m : Motor)
    (h : findMotor c cmd.id = some m) (he : m.isEnabled = false) :
    executeCommand c cmd = .error .motorIsDisabled := by
  unfold executeCommand
  rw [h]
  simp [he]

theorem executeCommand_outOfRange (c : Controller) (cmd : MotorCommand) (m : Motor)
    (h : findMotor c cmd.id = some m) (he : m.isEnabled = true)
    (hr : cmd.position < m.minPosition ∨ cmd.position > m.maxPosition) :
    executeCommand c cmd = .error .positionOutOfRange := by
  unfold executeCommand
  rw [h]
  simp only [he, Bool.not_true, Bool.false_eq_true, if_false]
  rw [if_pos hr]

theorem executeCommand_valid (c : Controller) (cmd : MotorCommand) (m : Motor)
    (h : findMotor c cmd.id = some m) (he : m.isEnabled = true)
    (hlo : m.minPosition ≤ cmd.position) (hhi : cmd.position ≤ m.maxPosition) :
    executeCommand c cmd = .ok (setMotor c
      { m with position := cmd.position,
               speed := if |cmd.speed| > m.maxSpeed then m.maxSpeed
                        else |cmd.speed| }) := by
  unfold executeCommand
  rw [h]
  simp only [he, Bool.not_true, Bool.false_eq_true, if_false]
  rw [if_neg (by push_neg; exact ⟨hlo, hhi⟩)]

/-- `integrateMotor` preserves the per-motor invariant. -/
theorem motorInv_integrate (m : Motor) (hm : MotorInv m) :
    MotorInv (integrateMotor m) := by
  obtain ⟨h1, h2, h3, h4, h5⟩ := hm
  unfold integrateMotor
  cases he : m.isEnabled with
  | false => simpa [he] using ⟨h1, h2, h3, h4, h5⟩
  | true =>
    simp only [he, Bool.not_true, Bool.false_eq_true, if_false]
    split_ifs with hlo hhi
    · exact ⟨h1, h2, le_refl _, h1, by simpa using h2⟩
    · exact ⟨h1, h2, h1, le_refl _, by simpa using h2⟩
    · push_neg at hlo hhi
      exact ⟨h1, h2, hlo, hhi, h5⟩

/-- Magnitude bound on the clamped speed written by `executeCommand`. -/
theorem clamped_speed_le (s maxS : ℚ) (h2 : 0 ≤ maxS) :
    abs (if |s| > maxS then maxS else |s|) ≤ maxS := by
  by_cases hs : |s| > maxS
  · rw [if_pos hs, abs_of_nonneg h2]
  · rw [if_neg hs, abs_abs]
    exact le_of_not_gt hs

/-- A successful `executeCommand` writes an in-bounds position and a speed
whose magnitude is at most `MaxSpeed`, so the invariant survives. -/
theorem motorInv_command (c : Controller) (cmd : MotorCommand)
    (hinv : ∀ m ∈ c.motors, MotorInv m) :
    ∀ m ∈ (motionStep c (.command cmd)).motors, MotorInv m := by
  intro m hm
  rw [motionStep] at hm
  cases hex : executeCommand c cmd with
  | error e => rw [hex] at hm; exact hinv m hm
  | ok c' =>
    rw [hex] at hm
    cases hfind : findMotor c cmd.id with
    | none =>
      rw [executeCommand_notFound c cmd hfind] at hex
      exact absurd hex (by simp)
    | some motor =>
      cases hen : motor.isEnabled with
      | false =>
        rw [executeCommand_disabled c cmd motor hfind hen] at hex
        exact absurd hex (by simp)
      | true =>
        by_cases hrange : cmd.position < motor.minPosition ∨ cmd.position > motor.maxPosition
        · rw [executeCommand_outOfRange c cmd motor hfind hen hrange] at hex
          exact absurd hex (by simp)
        · push_neg at hrange
          rw [executeCommand_valid c cmd motor hfind hen hrange.1 hrange.2] at hex
          injection hex with hex'
          subst hex'
          have hmotor : MotorInv motor :=
            hinv motor (List.mem_of_find?_eq_some hfind)
          obtain ⟨h1, h2, _, _, _⟩ := hmotor
          rw [setMotor] at hm
          rcases List.mem_map.mp hm with ⟨y, hy, heq⟩
          simp only at heq
          by_cases hyid : y.id = motor.id
          · rw [if_pos hyid] at heq
            rw [← heq]
            exact ⟨h1, h2, hrange.1, hrange.2, clamped_speed_le cmd.speed motor.maxSpeed h2⟩
          · rw [if_neg hyid] at heq
            rw [← heq]
            exact hinv y hy

/-- Every reachable controller state satisfies the per-motor invariant. -/
theorem motionRun_inv (ops : List MotionOp) :
    ∀ m ∈ (motionRun ops).motors, MotorInv m := by
  suffices h : ∀ (c : Controller), (∀ m ∈ c.motors, MotorInv m) →
      ∀ m ∈ (ops.foldl motionStep c).motors, MotorInv m by
    exact h newController (by decide)
  induction ops with
  | nil => intro c hc; simpa using hc
  | cons op ops ih =>
    intro c hc
    simp only [List.foldl_cons]
    refine ih (motionStep c op) ?_
    cases op with
    | command cmd => exact motorInv_command c cmd hc
    | tick =>
      intro m hm
      rw [motionStep, updateMotorStates] at hm
      simp only at hm
      rcases List.mem_map.mp hm with ⟨y, hy, heq⟩
      rw [← heq]
      exact motorInv_integrate y (hc y hy)

end Motion

namespace Sensor

theorem buf_setBuf (h : Hub) (t t' : SensorType) (l : List ℚ) :
    (h.setBuf t l).buf t' = if t' = t then l else h.buf t' := by
  cases t <;> cases t' <;> simp [Hub.buf, Hub.setBuf]

theorem valuesFor_append_singleton (t : SensorType) (ds : List SensorData) (d : SensorData) :
    valuesFor t (ds ++ [d]) = valuesFor t ds ++ (if d.type = t then [d.value] else []) := by
  by_cases hd : d.type = t <;>
    simp [valuesFor, List.filter_append, List.filter_singleton, hd]

theorem processAll_append_singleton (h : Hub) (ds : List SensorData) (d : SensorData) :
    processAll h (ds ++ [d]) = processOne (processAll h ds) d := by
  simp [processAll, List.foldl_append]

/-- The hub's per-category buffer is exactly the 1000-suffix of the values
ingested for that category. -/
theorem processAll_buf (ds : List SensorData) (t : SensorType) :
    (processAll newHub ds).buf t = lastN 1000 (valuesFor t ds) := by
  induction ds using List.reverseRecOn with
  | nil => cases t <;> simp [processAll, newHub, Hub.buf, valuesFor, lastN]
  | append_singleton ds d ih =>
    rw [processAll_append_singleton, valuesFor_append_singleton]
    by_cases hd : d.type = t
    · subst hd
      rw [processOne, buf_setBuf]
      simp only [if_pos rfl, if_pos trivial, ih]
      exact lastN_append_singleton 1000 (by norm_num) (valuesFor d.type ds) d.value
    · rw [processOne, buf_setBuf]
      rw [if_neg (fun hc => hd hc.symm), if_neg hd]
      simpa using ih

end Sensor

namespace Behavior

/-- Arithmetic mean of one metric field over a buffer (the spec's reading of
the averaging step), stated independently of the code's running-sum loop. -/
def meanOf (f : PatternMetrics → ℚ) (buffer : List PatternMetrics) : ℚ :=
  (buffer.map f).sum / buffer.length

/-- The Go accumulation loop `for _, m := range buffer { acc += f(m) }` is
the list sum. -/
theorem foldl_add_map (f : PatternMetrics → ℚ) (l : List PatternMetrics) (a : ℚ) :
    l.foldl (fun acc m => acc + f m) a = a + (l.map f).sum := by
  induction l generalizing a with
  | nil => simp
  | cons x xs ih => simp [ih, add_assoc]

/-- `calculateConfidence` is clamping into `[0, 1]`. -/
theorem calculateConfidence_eq_clamp (c : ℚ) :
    calculateConfidence c = max 0 (min 1 c) := by
  unfold calculateConfidence
  split_ifs with h1 h2
  · rw [min_eq_left (le_of_lt h1)]
    norm_num
  · rw [min_eq_right (not_lt.mp h1), max_eq_left (le_of_lt h2)]
  · rw [min_eq_right (not_lt.mp h1), max_eq_right (not_lt.mp h2)]

end Behavior

namespace Safety

/-- The monitor's level always equals the escalation policy applied to the
warning count: the link that makes the level monotone. -/
theorem safetyStep_levelOf (s : SafetyMonitor) (op : SafetyOp)
    (h : s.currentLevel = levelOf s.warnings.length) :
    (safetyStep s op).currentLevel = levelOf (safetyStep s op).warnings.length := by
  cases op with
  | checkOp => exact h
  | addWarningOp w =>
    simp only [safetyStep, addWarning, List.length_append, List.length_cons,
      List.length_nil]
    rw [h]
    unfold levelOf
    split_ifs <;> first | rfl | omega

theorem safetyRun_levelOf (ops : List SafetyOp) :
    (safetyRun ops).currentLevel = levelOf (safetyRun ops).warnings.length := by
  have key : ∀ (l : List SafetyOp) (s : SafetyMonitor),
      s.currentLevel = levelOf s.warnings.length →
      (l.foldl safetyStep s).currentLevel = levelOf (l.foldl safetyStep s).warnings.length := by
    intro l
    induction l with
    | nil => intro s hs; simpa using hs
    | cons op rest ih =>
      intro s hs
      simp only [List.foldl_cons]
      exact ih _ (safetyStep_levelOf s op hs)
  exact key ops initMonitor (by decide)

theorem levelOf_rank_mono {n m : Nat} (h : n ≤ m) :
    (levelOf n).rank ≤ (levelOf m).rank := by
  unfold levelOf
  split_ifs <;> simp only [SafetyLevel.rank] <;> omega

end Safety

/-- The first default motor of `NewController` (`servo_1`). -/
def servo1 : Motion.Motor :=
  { id := "servo_1", type := .servo, position := 0, speed := 0,
    maxSpeed := 180, minPosition := 0, maxPosition := 180, isEnabled := true }

/-- A servo about to overrun its upper position bound on the next tick. -/
def clampedServo : Motion.Motor :=
  { id := "servo_x", type := .servo, position := 179, speed := 150,
    maxSpeed := 180, minPosition := 0, maxPosition := 180, isEnabled := true }

/-- A one-motor controller whose motor is disabled. -/
def disabledServo : Motion.Motor :=
  { id := "servo_1", type := .servo, position := 0, speed := 0,
    maxSpeed := 180, minPosition := 0, maxPosition := 180, isEnabled := false }

def disabledController : Motion.Controller :=
  { motors := [disabledServo], running := true, closed := false }

def cmdUnknown : Motion.MotorCommand := { id := "servo_9", position := 10, speed := 0 }

def cmdDisabled : Motion.MotorCommand := { id := "servo_1", position := 90, speed := 10 }

def cmdOutOfRange : Motion.MotorCommand := { id := "servo_1", position := 200, speed := 10 }

def cmdNegSpeed : Motion.MotorCommand := { id := "servo_1", position := 90, speed := -200 }

/-- C1: from controller start-up, under any sequence of command executions
and integration ticks, every motor's position stays inside
`[minPosition, maxPosition]` and its speed magnitude stays at most
`maxSpeed`; and whenever an integration tick clamps a motor's position (the
integrated position left the bounds), it puts the position on a boundary and
simultaneously zeroes that motor's speed. -/
theorem motion_bounds_invariant :
    (∀ (ops : List Motion.MotionOp), ∀ m ∈ (Motion.motionRun ops).motors,
        m.minPosition ≤ m.position ∧ m.position ≤ m.maxPosition
          ∧ |m.speed| ≤ m.maxSpeed)
    ∧ (∀ m : Motion.Motor, m.isEnabled = true →
        (m.position + m.speed * (1 / 100) < m.minPosition
          ∨ m.position + m.speed * (1 / 100) > m.maxPosition) →
        (Motion.integrateMotor m).speed = 0
          ∧ ((Motion.integrateMotor m).position = m.minPosition
             ∨ (Motion.integrateMotor m).position = m.maxPosition)) := by
  constructor
  · intro ops m hm
    obtain ⟨_, _, h3, h4, h5⟩ := Motion.motionRun_inv ops m hm
    exact ⟨h3, h4, h5⟩
  · intro m he hor
    unfold Motion.integrateMotor
    simp only [he, Bool.not_true, Bool.false_eq_true, if_false]
    by_cases hlt : m.position + m.speed * (1 / 100) < m.minPosition
    · rw [if_pos hlt]
      exact ⟨rfl, Or.inl rfl⟩
    · have hgt := hor.resolve_left hlt
      rw [if_neg hlt, if_pos hgt]
      exact ⟨rfl, Or.inr rfl⟩

/-- Witness for C1 at concrete inputs: `servo_1` after one integration tick
from start-up, and a motor whose tick overruns the upper bound. -/
theorem motion_bounds_invariant_witness :
    (servo1 ∈ (Motion.motionRun [Motion.MotionOp.tick]).motors
      ∧ (servo1.minPosition ≤ servo1.position
         ∧ servo1.position ≤ servo1.maxPosition
         ∧ |servo1.speed| ≤ servo1.maxSpeed))
    ∧ (clampedServo.isEnabled = true
       ∧ (clampedServo.position + clampedServo.speed * (1 / 100) < clampedServo.minPosition
          ∨ clampedServo.position + clampedServo.speed * (1 / 100) > clampedServo.maxPosition)
       ∧ ((Motion.integrateMotor clampedServo).speed = 0
          ∧ ((Motion.integrateMotor clampedServo).position = clampedServo.minPosition
             ∨ (Motion.integrateMotor clampedServo).position = clampedServo.maxPosition))) := by
  have hmem : servo1 ∈ (Motion.motionRun [Motion.MotionOp.tick]).motors := by
    norm_num [Motion.motionRun, Motion.motionStep, Motion.updateMotorStates,
      Motion.newController, Motion.defaultMotors, Motion.integrateMotor, servo1]
  have hor : clampedServo.position + clampedServo.speed * (1 / 100) < clampedServo.minPosition
      ∨ clampedServo.position + clampedServo.speed * (1 / 100) > clampedServo.maxPosition := by
    norm_num [clampedServo]
  exact ⟨⟨hmem, motion_bounds_invariant.1 [Motion.MotionOp.tick] servo1 hmem⟩,
         by decide, hor, motion_bounds_invariant.2 clampedServo (by decide) hor⟩

/-- C2: a command whose target position lies outside the target motor's
bounds is rejected with the out-of-range error, a command naming an unknown
motor with motor-not-found, and a command naming a disabled motor with
motor-disabled; in every case the worker step leaves the controller (hence
every motor's position, speed and enabled flag) unchanged. -/
theorem motion_command_rejection :
    ∀ (c : Motion.Controller) (cmd : Motion.MotorCommand),
      (Motion.findMotor c cmd.id = none →
        Motion.executeCommand c cmd = .error .motorNotFound
          ∧ Motion.motionStep c (.command cmd) = c)
      ∧ (∀ m, Motion.findMotor c cmd.id = some m → m.isEnabled = false →
          Motion.executeCommand c cmd = .error .motorIsDisabled
            ∧ Motion.motionStep c (.command cmd) = c)
      ∧ (∀ m, Motion.findMotor c cmd.id = some m → m.isEnabled = true →
          (cmd.position < m.minPosition ∨ cmd.position > m.maxPosition) →
          Motion.executeCommand c cmd = .error .positionOutOfRange
            ∧ Motion.motionStep c (.command cmd) = c) := by
  intro c cmd
  refine ⟨fun h => ?_, fun m h he => ?_, fun m h he hr => ?_⟩
  · have heq := Motion.executeCommand_notFound c cmd h
    exact ⟨heq, by simp only [Motion.motionStep, heq]⟩
  · have heq := Motion.executeCommand_disabled c cmd m h he
    exact ⟨heq, by simp only [Motion.motionStep, heq]⟩
  · have heq := Motion.executeCommand_outOfRange c cmd m h he hr
    exact ⟨heq, by simp only [Motion.motionStep, heq]⟩

/-- Witness for C2: the three rejection cases at concrete inputs (unknown
motor id, disabled motor, target position 200 on a `[0, 180]` servo). -/
theorem motion_command_rejection_witness :
    (Motion.findMotor Motion.newController cmdUnknown.id = none
      ∧ Motion.executeCommand Motion.newController cmdUnknown = .error .motorNotFound
      ∧ Motion.motionStep Motion.newController (.command cmdUnknown) = Motion.newController)
    ∧ (Motion.findMotor disabledController cmdDisabled.id = some disabledServo
      ∧ disabledServo.isEnabled = false
      ∧ Motion.executeCommand disabledController cmdDisabled = .error .motorIsDisabled
      ∧ Motion.motionStep disabledController (.command cmdDisabled) = disabledController)
    ∧ (Motion.findMotor Motion.newController cmdOutOfRange.id = some servo1
      ∧ servo1.isEnabled = true
      ∧ (cmdOutOfRange.position < servo1.minPosition
         ∨ cmdOutOfRange.position > servo1.maxPosition)
      ∧ Motion.executeCommand Motion.newController cmdOutOfRange = .error .positionOutOfRange
      ∧ Motion.motionStep Motion.newController (.command cmdOutOfRange) = Motion.newController) := by
  have h1 := (motion_command_rejection Motion.newController cmdUnknown).1 (by decide)
  have h2 := (motion_command_rejection disabledController cmdDisabled).2.1 disabledServo
    (by decide) (by decide)
  have h3 := (motion_command_rejection Motion.newController cmdOutOfRange).2.2 servo1
    (by decide) (by decide) (by decide)
  exact ⟨⟨by decide, h1.1, h1.2⟩,
         ⟨by decide, by decide, h2.1, h2.2⟩,
         ⟨by decide, by decide, by decide, h3.1, h3.2⟩⟩

/-- C9: a command that passes validation (motor exists, enabled, target in
bounds) sets the motor's position to the target position and its speed to
the target speed's magnitude clamped at `maxSpeed`; no target speed is
rejected, negative values included. -/
theorem motion_command_success :
    ∀ (c : Motion.Controller) (cmd : Motion.MotorCommand) (m : Motion.Motor),
      Motion.findMotor c cmd.id = some m → m.isEnabled = true →
      m.minPosition ≤ cmd.position → cmd.position ≤ m.maxPosition →
      ∃ c', Motion.executeCommand c cmd = .ok c'
        ∧ Motion.findMotor c' cmd.id
            = some { m with position := cmd.position,
                            speed := min (abs cmd.speed) m.maxSpeed } := by
  intro c cmd m h he hlo hhi
  refine ⟨_, Motion.executeCommand_valid c cmd m h he hlo hhi, ?_⟩
  have hclamp : (if |cmd.speed| > m.maxSpeed then m.maxSpeed else |cmd.speed|)
      = min |cmd.speed| m.maxSpeed := by
    rcases le_or_lt |cmd.speed| m.maxSpeed with hle | hlt
    · rw [if_neg (not_lt.mpr hle), min_eq_left hle]
    · rw [if_pos hlt, min_eq_right hlt.le]
  rw [← hclamp]
  exact Motion.findMotor_setMotor c cmd.id m
    { m with position := cmd.position,
             speed := if |cmd.speed| > m.maxSpeed then m.maxSpeed else |cmd.speed| } h rfl

/-- Witness for C9 at a concrete input: target speed `-200` on `servo_1`
(max speed 180) is accepted and clamped to magnitude 180. -/
theorem motion_command_success_witness :
    Motion.findMotor Motion.newController cmdNegSpeed.id = some servo1
    ∧ servo1.isEnabled = true
    ∧ servo1.minPosition ≤ cmdNegSpeed.position
    ∧ cmdNegSpeed.position ≤ servo1.maxPosition
    ∧ (∃ c', Motion.executeCommand Motion.newController cmdNegSpeed = .ok c'
        ∧ Motion.findMotor c' cmdNegSpeed.id
            = some { servo1 with position := cmdNegSpeed.position,
                                 speed := min (abs cmdNegSpeed.speed) servo1.maxSpeed }) :=
  ⟨by decide, by decide, by decide, by decide,
   motion_command_success Motion.newController cmdNegSpeed servo1
     (by decide) (by decide) (by decide) (by decide)⟩

/-- C6: for every sequence of ingested readings processed into the hub from
start-up, each category's snapshot holds at most 1000 values, and equals the
suffix of that category's ingested values (oldest evicted first, FIFO order,
most recent last). -/
theorem sensor_snapshot_capped_fifo (ds : List Sensor.SensorData) (t : Sensor.SensorType) :
    Sensor.getSensorData (Sensor.processAll Sensor.newHub ds) t
      = lastN 1000 (Sensor.valuesFor t ds)
    ∧ (Sensor.getSensorData (Sensor.processAll Sensor.newHub ds) t).length ≤ 1000 := by
  refine ⟨Sensor.processAll_buf ds t, ?_⟩
  rw [Sensor.getSensorData, Sensor.processAll_buf ds t, length_lastN]
  omega

/-- A two-sample metrics buffer used as concrete input. -/
def bufEx : List Behavior.PatternMetrics :=
  [ { intensity := 0.9, frequency := 0.9, duration := 1, consistency := 1 },
    { intensity := 0.9, frequency := 0.9, duration := 1, consistency := 0.5 } ]

/-- A high-confidence pattern, above the 0.75 threshold. -/
def pHi : Behavior.BehaviorPattern :=
  { type := .aggressive, confidence := 0.8,
    metrics := { intensity := 0.9, frequency := 0.9, duration := 1, consistency := 0.8 } }

/-- C3: on a non-empty buffer, the analyzer classifies from the arithmetic
means of the metric fields — aggressive when mean intensity and mean
frequency both exceed 0.8, else passive when both are below 0.2, else
erratic when they differ by more than 0.5, else normal — and the returned
confidence is the mean consistency clamped into `[0, 1]`. -/
theorem classifier_mean_rules :
    ∀ (buffer : List Behavior.PatternMetrics), buffer ≠ [] →
      (Behavior.analyzeBuffer buffer).type
        = (if Behavior.meanOf (fun m => m.intensity) buffer > 0.8
              ∧ Behavior.meanOf (fun m => m.frequency) buffer > 0.8
           then .aggressive
           else if Behavior.meanOf (fun m => m.intensity) buffer < 0.2
              ∧ Behavior.meanOf (fun m => m.frequency) buffer < 0.2
           then .passive
           else if |Behavior.meanOf (fun m => m.intensity) buffer
                      - Behavior.meanOf (fun m => m.frequency) buffer| > 0.5
           then .erratic
           else .normal)
      ∧ (Behavior.analyzeBuffer buffer).confidence
          = max 0 (min 1 (Behavior.meanOf (fun m => m.consistency) buffer)) := by
  intro buffer hne
  unfold Behavior.analyzeBuffer
  rw [if_neg hne]
  simp only [Behavior.foldl_add_map, zero_add]
  exact ⟨by rw [Behavior.classifyBehavior]; rfl,
         by rw [Behavior.calculateConfidence_eq_clamp]; rfl⟩

/-- Witness for C3 at a concrete buffer: two samples with intensity and
frequency 0.9 classify as aggressive with confidence 0.75. -/
theorem classifier_mean_rules_witness :
    bufEx ≠ []
    ∧ ((Behavior.analyzeBuffer bufEx).type
        = (if Behavior.meanOf (fun m => m.intensity) bufEx > 0.8
              ∧ Behavior.meanOf (fun m => m.frequency) bufEx > 0.8
           then .aggressive
           else if Behavior.meanOf (fun m => m.intensity) bufEx < 0.2
              ∧ Behavior.meanOf (fun m => m.frequency) bufEx < 0.2
           then .passive
           else if |Behavior.meanOf (fun m => m.intensity) bufEx
                      - Behavior.meanOf (fun m => m.frequency) bufEx| > 0.5
           then .erratic
           else .normal)
      ∧ (Behavior.analyzeBuffer bufEx).confidence
          = max 0 (min 1 (Behavior.meanOf (fun m => m.consistency) bufEx))) :=
  ⟨by simp [bufEx], classifier_mean_rules bufEx (by simp [bufEx])⟩

/-- C4: a classified pattern is appended to the history unconditionally,
with the history capped at 1000 entries (oldest evicted first), while the
externally visible current state becomes the pattern's type exactly when its
confidence reaches the threshold, whose initial value is 0.75. -/
theorem analyzer_history_and_gate :
    Behavior.newAnalyzer.threshold = 0.75
    ∧ ∀ (a : Behavior.Analyzer) (p : Behavior.BehaviorPattern),
        a.patterns.length ≤ 1000 →
        ((Behavior.addPattern a p).patterns = lastN 1000 (a.patterns ++ [p])
         ∧ (Behavior.addPattern a p).patterns.length ≤ 1000
         ∧ (Behavior.addPattern a p).currentState
             = (if p.confidence ≥ a.threshold then p.type else a.currentState)) := by
  refine ⟨rfl, ?_⟩
  intro a p h
  have hfifo := lastN_append_singleton 1000 (by norm_num) a.patterns p
  rw [lastN_of_le 1000 a.patterns h] at hfifo
  refine ⟨hfifo, ?_, rfl⟩
  rw [Behavior.addPattern]
  simp only
  rw [hfifo, length_lastN]
  omega

/-- Witness for C4: adding a confidence-0.8 pattern to the fresh analyzer. -/
theorem analyzer_history_and_gate_witness :
    Behavior.newAnalyzer.patterns.length ≤ 1000
    ∧ ((Behavior.addPattern Behavior.newAnalyzer pHi).patterns
          = lastN 1000 (Behavior.newAnalyzer.patterns ++ [pHi])
       ∧ (Behavior.addPattern Behavior.newAnalyzer pHi).patterns.length ≤ 1000
       ∧ (Behavior.addPattern Behavior.newAnalyzer pHi).currentState
           = (if pHi.confidence ≥ Behavior.newAnalyzer.threshold then pHi.type
              else Behavior.newAnalyzer.currentState)) :=
  ⟨by decide, analyzer_history_and_gate.2 Behavior.newAnalyzer pHi (by decide)⟩

/-- C5: from the initial safety state, 11 `AddWarning` calls raise the level
to at least `warning` and 21 to at least `critical`; and no operation (there
is no reset in the code) ever lowers the level of a reachable state. -/
theorem safety_escalation_monotone :
    (Safety.safetyRun (List.replicate 11 (Safety.SafetyOp.addWarningOp "w"))).currentLevel.rank
        ≥ (Safety.SafetyLevel.warning).rank
    ∧ (Safety.safetyRun (List.replicate 21 (Safety.SafetyOp.addWarningOp "w"))).currentLevel.rank
        ≥ (Safety.SafetyLevel.critical).rank
    ∧ ∀ (ops : List Safety.SafetyOp) (op : Safety.SafetyOp),
        (Safety.safetyRun ops).currentLevel.rank
          ≤ (Safety.safetyStep (Safety.safetyRun ops) op).currentLevel.rank := by
  refine ⟨by decide, by decide, ?_⟩
  intro ops op
  have h1 := Safety.safetyRun_levelOf ops
  have h2 := Safety.safetyStep_levelOf (Safety.safetyRun ops) op h1
  rw [h1, h2]
  apply Safety.levelOf_rank_mono
  cases op with
  | addWarningOp w => simp [Safety.safetyStep, Safety.addWarning]
  | checkOp => simp [Safety.safetyStep]

/-- C10: no reachable safety-monitor state carries the `emergency` level:
the code defines the enum value but never assigns it. -/
theorem safety_level_never_emergency :
    ∀ (ops : List Safety.SafetyOp),
      ((Safety.safetyRun ops).currentLevel = .normal
        ∨ (Safety.safetyRun ops).currentLevel = .warning
        ∨ (Safety.safetyRun ops).currentLevel = .critical)
      ∧ (Safety.safetyRun ops).currentLevel ≠ .emergency := by
  intro ops
  rw [Safety.safetyRun_levelOf ops]
  unfold Safety.levelOf
  constructor
  · split_ifs <;> simp
  · split_ifs <;> simp

/-- The hub, controller and analyzer states right after a first shutdown. -/
def hubOnce : Sensor.Hub := { Sensor.newHub with closed := true }

def controllerOnce : Motion.Controller :=
  { motors := [{ disabledServo with id := "servo_1" },
               { disabledServo with id := "servo_2" }],
    running := false, closed := true }

def analyzerOnce : Behavior.Analyzer := { Behavior.newAnalyzer with closed := true }

/-- A concrete sensor reading. -/
def touchReading : Sensor.SensorData := { type := .touch, value := 1, timestamp := 0 }

/-- C7 counterexample: a second `Shutdown` on the sensor hub is not an
error-free no-op — the first call succeeds, the second raises the Go
"close of closed channel" fault. -/
theorem shutdown_twice_counterexample :
    Sensor.hubShutdown Sensor.newHub = .ok hubOnce
    ∧ Sensor.hubShutdown hubOnce = .error .closeOfClosedChannel :=
  ⟨rfl, rfl⟩

/-- C7 amended: on each core component (hub, motion controller, behavior
analyzer), `Shutdown` after a successful `Shutdown` faults with "close of
closed channel" instead of being a no-op. -/
theorem shutdown_second_call_faults :
    (∀ (h h' : Sensor.Hub), Sensor.hubShutdown h = .ok h' →
        Sensor.hubShutdown h' = .error .closeOfClosedChannel)
    ∧ (∀ (c c' : Motion.Controller), Motion.controllerShutdown c = .ok c' →
        Motion.controllerShutdown c' = .error .closeOfClosedChannel)
    ∧ (∀ (a a' : Behavior.Analyzer), Behavior.analyzerShutdown a = .ok a' →
        Behavior.analyzerShutdown a' = .error .closeOfClosedChannel) := by
  refine ⟨?_, ?_, ?_⟩
  · intro x x' hx
    unfold Sensor.hubShutdown at *
    by_cases hc : x.closed
    · rw [if_pos hc] at hx
      exact absurd hx (by simp)
    · rw [if_neg hc] at hx
      injection hx with hx'
      rw [← hx']
      simp
  · intro x x' hx
    unfold Motion.controllerShutdown at *
    by_cases hc : x.closed
    · rw [if_pos hc] at hx
      exact absurd hx (by simp)
    · rw [if_neg hc] at hx
      injection hx with hx'
      rw [← hx']
      simp
  · intro x x' hx
    unfold Behavior.analyzerShutdown at *
    by_cases hc : x.closed
    · rw [if_pos hc] at hx
      exact absurd hx (by simp)
    · rw [if_neg hc] at hx
      injection hx with hx'
      rw [← hx']
      simp

/-- Witness for the amended C7 on all three components, from their initial
states. -/
theorem shutdown_second_call_faults_witness :
    Sensor.hubShutdown Sensor.newHub = .ok hubOnce
    ∧ Sensor.hubShutdown hubOnce = .error .closeOfClosedChannel
    ∧ Motion.controllerShutdown Motion.newController = .ok controllerOnce
    ∧ Motion.controllerShutdown controllerOnce = .error .closeOfClosedChannel
    ∧ Behavior.analyzerShutdown Behavior.newAnalyzer = .ok analyzerOnce
    ∧ Behavior.analyzerShutdown analyzerOnce = .error .closeOfClosedChannel :=
  ⟨rfl, shutdown_second_call_faults.1 Sensor.newHub hubOnce rfl,
   rfl, shutdown_second_call_faults.2.1 Motion.newController controllerOnce rfl,
   rfl, shutdown_second_call_faults.2.2 Behavior.newAnalyzer analyzerOnce rfl⟩

/-- C8 counterexample: a reading submitted after shutdown does not produce a
"hub closed" error return — `AddSensorData` has no error return value; the
send on the closed channel raises the Go runtime fault instead. -/
theorem ingest_after_shutdown_counterexample :
    Sensor.addSensorData hubOnce touchReading = .fault .sendOnClosedChannel
    ∧ Sensor.addSensorData hubOnce touchReading ≠ .hubClosedError :=
  ⟨rfl, fun h => nomatch h⟩

/-- C8 amended: after `Shutdown`, submitting a reading faults with "send on
closed channel" (no error value is returned to the caller), and no buffer
gains the reading. -/
theorem ingest_after_shutdown_faults :
    ∀ (h h' : Sensor.Hub) (d : Sensor.SensorData),
      Sensor.hubShutdown h = .ok h' →
      Sensor.addSensorData h' d = .fault .sendOnClosedChannel
      ∧ (∀ t, Sensor.getSensorData h' t = Sensor.getSensorData h t) := by
  intro h h' d hok
  unfold Sensor.hubShutdown at hok
  by_cases hc : h.closed
  · rw [if_pos hc] at hok
    exact absurd hok (by simp)
  · rw [if_neg hc] at hok
    injection hok with hok'
    constructor
    · unfold Sensor.addSensorData
      rw [← hok']
      simp
    · intro t
      rw [← hok']
      cases t <;> rfl

/-- Witness for the amended C8: a touch reading submitted to the freshly
shut-down hub. -/
theorem ingest_after_shutdown_faults_witness :
    Sensor.hubShutdown Sensor.newHub = .ok hubOnce
    ∧ (Sensor.addSensorData hubOnce touchReading = .fault .sendOnClosedChannel
       ∧ (∀ t, Sensor.getSensorData hubOnce t = Sensor.getSensorData Sensor.newHub t)) :=
  ⟨rfl, ingest_after_shutdown_faults Sensor.newHub hubOnce touchReading rfl⟩

